import Mathlib

/-!
Verification of the teleoperation control panel in `src/App.jsx`.

The component is embedded as a state machine: `AppState` holds the React
state and refs that the control logic reads and writes (connection flag,
e-stop flag, the mutable `axesRef`, the gain settings, the topic reference),
together with a log of every twist message handed to `topic.publish`, each
tagged with the `setTimeout` delay (in ms) it was scheduled with (0 for an
immediate publish).  Each event handler and the 50 ms interval callback
become one case of the `step` function.  Numeric values are modelled as
exact rationals.  Presentation-only state (status text, error text, settings
visibility, the joystick widget itself) plays no part in the control logic
and is not modelled.
-/

/-- JS Math.min of two numbers. -/
def jsMin (a b : ℚ) : ℚ := if a ≤ b then a else b

/-- JS Math.max of two numbers. -/
def jsMax (a b : ℚ) : ℚ := if a ≤ b then b else a

/-- The helper clamp(v, min, max) = Math.min(max, Math.max(min, v)) from App.jsx. -/
def clamp (v lo hi : ℚ) : ℚ := jsMin hi (jsMax lo v)

/-- A 3-component vector, the `{ x, y, z }` objects in the twist message. -/
structure Vec3 where
  x : ℚ
  y : ℚ
  z : ℚ
  deriving DecidableEq, Repr

/-- A `geometry_msgs/Twist` message: a 3D linear and a 3D angular vector. -/
structure Twist where
  linear : Vec3
  angular : Vec3
  deriving DecidableEq, Repr

/-- The `twistTemplate` memo: all six components zero. -/
def twistTemplate : Twist :=
  { linear := { x := 0, y := 0, z := 0 }
    angular := { x := 0, y := 0, z := 0 } }

/-- The message built inside `publishTwist`: the template with `linear`
and `angular` overridden, carrying `linX` and `angZ`. -/
def mkTwistMsg (linX angZ : ℚ) : Twist :=
  { twistTemplate with
    linear := { x := linX, y := 0, z := 0 }
    angular := { x := 0, y := 0, z := angZ } }

/-- The configuration of a `ROSLIB.Topic`: its name and ROS message type. -/
structure TopicCfg where
  name : String
  messageType : String
  deriving DecidableEq, Repr

/-- The state the control logic of `App` reads and writes: React state
(`isConnected`, `estop`, `linearMax`, `angularMax`, `topicName`), refs
(`axesRef`, `cmdVelTopicRef`), and the log of published messages, each
tagged with the delay (ms) it was scheduled with. -/
structure AppState where
  isConnected : Bool
  estop : Bool
  axes : ℚ × ℚ
  linearMax : ℚ
  angularMax : ℚ
  topicName : String
  cmdVelTopic : Option TopicCfg
  published : List (Nat × Twist)
  deriving DecidableEq, Repr

/-- Initial state: the `useState`/`useRef` initialisers of `App`. -/
def initState : AppState :=
  { isConnected := false
    estop := false
    axes := (0, 0)
    linearMax := 0.6
    angularMax := 1.2
    topicName := "/cmd_vel"
    cmdVelTopic := none
    published := [] }

/-- Generalisation of `publishTwist` over the `setTimeout` delay it was scheduled
with: a no-op when `cmdVelTopicRef.current` is null, otherwise appends the
built message to the publish log. -/
def publishTwistAt (s : AppState) (delayMs : Nat) (linX angZ : ℚ) : AppState :=
  match s.cmdVelTopic with
  | none => s
  | some _ => { s with published := s.published ++ [(delayMs, mkTwistMsg linX angZ)] }

/-- The function publishTwist(linX, angZ) from App.jsx: an immediate publish. -/
def publishTwist (s : AppState) (linX angZ : ℚ) : AppState :=
  publishTwistAt s 0 linX angZ

/-- The function safeStop() from App.jsx: reset `axesRef` to `(0, 0)`, publish a zero
twist now and schedule two more at 80 ms and 160 ms. -/
def safeStop (s : AppState) : AppState :=
  let s1 := { s with axes := (0, 0) }
  let s2 := publishTwist s1 0 0
  let s3 := publishTwistAt s2 80 0 0
  publishTwistAt s3 160 0 0

/-- The `setInterval` callback of the 50 ms timer effect: return early when
not connected; under e-stop publish a zero twist; otherwise read `(x, y)`
from `axesRef`, scale and clamp, and publish. -/
def timerTick (s : AppState) : AppState :=
  if !s.isConnected then s
  else if s.estop then publishTwist s 0 0
  else
    let x := s.axes.1
    let y := s.axes.2
    let lin := clamp (y * s.linearMax) (-s.linearMax) s.linearMax
    let ang := clamp (x * s.angularMax) (-s.angularMax) s.angularMax
    publishTwist s lin ang

/-- The eight directional buttons of the button-control grid. -/
inductive DirButton where
  | upLeft | up | upRight | left | right | downLeft | down | downRight
  deriving DecidableEq, Repr

/-- The vector each button's `onPointerDown` handler stores in `axesRef`. -/
def buttonAxes : DirButton → ℚ × ℚ
  | .upLeft    => (-0.7, 1)
  | .up        => (0, 1)
  | .upRight   => (0.7, 1)
  | .left      => (-1, 0)
  | .right     => (1, 0)
  | .downLeft  => (-0.7, -1)
  | .down      => (0, -1)
  | .downRight => (0.7, -1)

/-- The events the control logic reacts to: rosbridge session events,
the interval timer, joystick and button input, the e-stop buttons, and
the settings form. -/
inductive Event where
  | connect
  | closeConn
  | errorConn
  | tick
  | joyMove (vx vy : ℚ)
  | joyEnd
  | btnDown (b : DirButton)
  | btnUp
  | stopBtn
  | estopPress
  | estopRelease
  | disconnectBtn
  | setTopic (name : String)
  | setLinearMax (q : ℚ)
  | setAngularMax (q : ℚ)
  | switchToButtons
  deriving DecidableEq, Repr

/-- One step of the component: each case transcribes the corresponding
handler in `App.jsx`.
* `connect`: the `ros.on("connection")` callback — set the flag and build
  the topic from the current `topicName` with type `geometry_msgs/Twist`.
* `closeConn` / `errorConn`: the `close` / `error` callbacks — clear the
  flag and `safeStop()`.
* `tick`: the 50 ms interval callback.
* `joyMove vx vy`: the nipplejs `move` handler — clamp both components to
  `[-1, 1]` and store `{ x, y: -y }`.
* `joyEnd`: the nipplejs `end` handler — zero the axes and publish zero.
* `btnDown b`: a directional button's `onPointerDown` — store its vector.
* `btnUp`: `onPointerUp` / `onPointerLeave` — zero the axes, publish zero.
* `stopBtn`: the centre DUR button's `onClick` — same as `btnUp`.
* `estopPress` / `estopRelease`: the ACİL DURDUR / E-STOP ÇÖZ buttons —
  set or clear `estop`, then `safeStop()`.
* `disconnectBtn`: the Kes button — `disconnect()` (which nulls the topic
  ref and clears the flag) then `safeStop()`.
* `setTopic name`: the `topicName` effect — when connected, rebuild the
  topic under the new name and `safeStop()`; otherwise just record the name.
* `setLinearMax` / `setAngularMax`: the settings inputs.
* `switchToButtons`: the control-mode button — `safeStop()`. -/
def step (s : AppState) (e : Event) : AppState :=
  match e with
  | .connect =>
      { s with isConnected := true
               cmdVelTopic := some ⟨s.topicName, "geometry_msgs/Twist"⟩ }
  | .closeConn => safeStop { s with isConnected := false }
  | .errorConn => safeStop { s with isConnected := false }
  | .tick => timerTick s
  | .joyMove vx vy =>
      { s with axes := (clamp vx (-1) 1, -(clamp vy (-1) 1)) }
  | .joyEnd => publishTwist { s with axes := (0, 0) } 0 0
  | .btnDown b => { s with axes := buttonAxes b }
  | .btnUp => publishTwist { s with axes := (0, 0) } 0 0
  | .stopBtn => publishTwist { s with axes := (0, 0) } 0 0
  | .estopPress => safeStop { s with estop := true }
  | .estopRelease => safeStop { s with estop := false }
  | .disconnectBtn => safeStop { s with isConnected := false, cmdVelTopic := none }
  | .setTopic name =>
      if s.isConnected then
        safeStop { s with topicName := name
                          cmdVelTopic := some ⟨name, "geometry_msgs/Twist"⟩ }
      else { s with topicName := name }
  | .setLinearMax q => { s with linearMax := q }
  | .setAngularMax q => { s with angularMax := q }
  | .switchToButtons => safeStop s

/-- Run a sequence of events from a state. -/
def run (s : AppState) (evts : List Event) : AppState :=
  evts.foldl step s

/-- The four twist components the app never drives: `linear.y`, `linear.z`,
`angular.x`, `angular.y`. -/
def zeroSides (t : Twist) : Prop :=
  t.linear.y = 0 ∧ t.linear.z = 0 ∧ t.angular.x = 0 ∧ t.angular.y = 0

instance (t : Twist) : Decidable (zeroSides t) := by
  unfold zeroSides; infer_instance

/-- The JS minimum agrees with the order-theoretic minimum on rationals. -/
lemma jsMin_eq_min (a b : ℚ) : jsMin a b = min a b := by
  rw [jsMin, min_def]

/-- The JS maximum agrees with the order-theoretic maximum on rationals. -/
lemma jsMax_eq_max (a b : ℚ) : jsMax a b = max a b := by
  rw [jsMax, max_def]

/-- Unfolding of clamp in terms of min and max. -/
lemma clamp_eq_min_max (v lo hi : ℚ) : clamp v lo hi = min hi (max lo v) := by
  rw [clamp, jsMin_eq_min, jsMax_eq_max]

/-- The clamped value is at least the lower bound when the bounds are ordered. -/
lemma le_clamp (v lo hi : ℚ) (h : lo ≤ hi) : lo ≤ clamp v lo hi := by
  rw [clamp_eq_min_max]
  exact le_min h (le_max_left lo v)

/-- The clamped value never exceeds the upper bound. -/
lemma clamp_le (v lo hi : ℚ) : clamp v lo hi ≤ hi := by
  rw [clamp_eq_min_max]
  exact min_le_left hi _

/-- Clamping leaves a value already inside the range unchanged. -/
lemma clamp_of_mem (v lo hi : ℚ) (h1 : lo ≤ v) (h2 : v ≤ hi) : clamp v lo hi = v := by
  rw [clamp_eq_min_max, max_eq_right h1, min_eq_right h2]

/-- Publishing never touches the axes reference. -/
lemma publishTwistAt_axes (s : AppState) (d : Nat) (a b : ℚ) :
    (publishTwistAt s d a b).axes = s.axes := by
  unfold publishTwistAt
  split <;> rfl

/-- Publishing never touches the e-stop flag. -/
lemma publishTwistAt_estop (s : AppState) (d : Nat) (a b : ℚ) :
    (publishTwistAt s d a b).estop = s.estop := by
  unfold publishTwistAt
  split <;> rfl

/-- Publishing never touches the topic reference. -/
lemma publishTwistAt_topic (s : AppState) (d : Nat) (a b : ℚ) :
    (publishTwistAt s d a b).cmdVelTopic = s.cmdVelTopic := by
  unfold publishTwistAt
  split <;> rfl

/-- With a null topic reference, publishing is a no-op. -/
lemma publishTwistAt_none (s : AppState) (d : Nat) (a b : ℚ)
    (h : s.cmdVelTopic = none) : publishTwistAt s d a b = s := by
  unfold publishTwistAt
  rw [h]

/-- With a live topic, publishing appends exactly the built message. -/
lemma publishTwistAt_some (s : AppState) (d : Nat) (a b : ℚ) (t : TopicCfg)
    (h : s.cmdVelTopic = some t) :
    publishTwistAt s d a b = { s with published := s.published ++ [(d, mkTwistMsg a b)] } := by
  unfold publishTwistAt
  rw [h]

/-- The function safeStop always leaves the axes reference at the origin. -/
lemma safeStop_axes (s : AppState) : (safeStop s).axes = (0, 0) := by
  unfold safeStop publishTwist
  rw [publishTwistAt_axes, publishTwistAt_axes, publishTwistAt_axes]

/-- The function safeStop never touches the e-stop flag. -/
lemma safeStop_estop (s : AppState) : (safeStop s).estop = s.estop := by
  unfold safeStop publishTwist
  rw [publishTwistAt_estop, publishTwistAt_estop, publishTwistAt_estop]

/-- The function safeStop never touches the topic reference. -/
lemma safeStop_topic (s : AppState) : (safeStop s).cmdVelTopic = s.cmdVelTopic := by
  unfold safeStop publishTwist
  rw [publishTwistAt_topic, publishTwistAt_topic, publishTwistAt_topic]

/-- With a live topic, safeStop appends exactly three zero twists, scheduled
immediately, at 80 ms and at 160 ms. -/
lemma safeStop_published_some (s : AppState) (t : TopicCfg)
    (h : s.cmdVelTopic = some t) :
    (safeStop s).published =
      s.published ++ [(0, mkTwistMsg 0 0), (80, mkTwistMsg 0 0), (160, mkTwistMsg 0 0)] := by
  unfold safeStop publishTwist
  rw [publishTwistAt_some _ _ _ _ t (by simp [publishTwistAt_topic]; exact h)]
  rw [publishTwistAt_some _ _ _ _ t (by simp [publishTwistAt_topic]; exact h)]
  rw [publishTwistAt_some _ _ _ _ t (by simp [publishTwistAt_topic]; exact h)]
  simp

/-- With a null topic, safeStop only resets the axes. -/
lemma safeStop_none (s : AppState) (h : s.cmdVelTopic = none) :
    safeStop s = { s with axes := (0, 0) } := by
  unfold safeStop publishTwist
  rw [publishTwistAt_none _ _ _ _ (by simp [publishTwistAt_topic]; exact h)]
  rw [publishTwistAt_none _ _ _ _ (by simp [publishTwistAt_topic]; exact h)]
  rw [publishTwistAt_none _ _ _ _ (by simp [publishTwistAt_topic]; exact h)]

/-- The timer callback never touches the axes reference. -/
lemma timerTick_axes (s : AppState) : (timerTick s).axes = s.axes := by
  unfold timerTick
  cases hc : s.isConnected <;> cases he : s.estop <;>
    simp [publishTwist, publishTwistAt_axes]

/-- A message in the log after a publish was already there or is the one
just built. -/
lemma mem_publishTwistAt (s : AppState) (d : Nat) (a b : ℚ) (m : Nat × Twist)
    (hm : m ∈ (publishTwistAt s d a b).published) :
    m ∈ s.published ∨ m = (d, mkTwistMsg a b) := by
  unfold publishTwistAt at hm
  rcases h : s.cmdVelTopic with _ | t <;> rw [h] at hm
  · exact Or.inl hm
  · simpa using hm

/-- A message in the log after safeStop was already there or is a zero twist. -/
lemma mem_safeStop (s : AppState) (m : Nat × Twist)
    (hm : m ∈ (safeStop s).published) :
    m ∈ s.published ∨ ∃ d : Nat, m = (d, mkTwistMsg 0 0) := by
  unfold safeStop publishTwist at hm
  rcases mem_publishTwistAt _ _ _ _ _ hm with hm | rfl
  · rcases mem_publishTwistAt _ _ _ _ _ hm with hm | rfl
    · rcases mem_publishTwistAt _ _ _ _ _ hm with hm | rfl
      · exact Or.inl hm
      · exact Or.inr ⟨0, rfl⟩
    · exact Or.inr ⟨80, rfl⟩
  · exact Or.inr ⟨160, rfl⟩

/-- A message in the log after any event was already there or is a message
built by publishTwist. -/
lemma mem_step (s : AppState) (e : Event) (m : Nat × Twist)
    (hm : m ∈ (step s e).published) :
    m ∈ s.published ∨ ∃ (d : Nat) (a b : ℚ), m = (d, mkTwistMsg a b) := by
  have toGen : m ∈ s.published ∨ (∃ d : Nat, m = (d, mkTwistMsg 0 0)) →
      m ∈ s.published ∨ ∃ (d : Nat) (a b : ℚ), m = (d, mkTwistMsg a b) := by
    rintro (h | ⟨d, rfl⟩)
    · exact Or.inl h
    · exact Or.inr ⟨d, 0, 0, rfl⟩
  cases e with
  | connect => exact Or.inl hm
  | closeConn => rcases mem_safeStop _ _ hm with h | ⟨d, rfl⟩
                 · exact Or.inl h
                 · exact Or.inr ⟨d, 0, 0, rfl⟩
  | errorConn => rcases mem_safeStop _ _ hm with h | ⟨d, rfl⟩
                 · exact Or.inl h
                 · exact Or.inr ⟨d, 0, 0, rfl⟩
  | tick =>
      unfold step timerTick at hm
      rcases hc : s.isConnected <;> rw [hc] at hm
      · exact Or.inl hm
      · rcases he : s.estop <;> rw [he] at hm <;> simp at hm <;>
          rcases mem_publishTwistAt _ _ _ _ _ hm with h | rfl
        · exact Or.inl h
        · exact Or.inr ⟨0, _, _, rfl⟩
        · exact Or.inl h
        · exact Or.inr ⟨0, _, _, rfl⟩
  | joyMove vx vy => exact Or.inl hm
  | joyEnd => rcases mem_publishTwistAt _ _ _ _ _ hm with h | rfl
              · exact Or.inl h
              · exact Or.inr ⟨0, 0, 0, rfl⟩
  | btnDown b => exact Or.inl hm
  | btnUp => rcases mem_publishTwistAt _ _ _ _ _ hm with h | rfl
             · exact Or.inl h
             · exact Or.inr ⟨0, 0, 0, rfl⟩
  | stopBtn => rcases mem_publishTwistAt _ _ _ _ _ hm with h | rfl
               · exact Or.inl h
               · exact Or.inr ⟨0, 0, 0, rfl⟩
  | estopPress => rcases mem_safeStop _ _ hm with h | ⟨d, rfl⟩
                  · exact Or.inl h
                  · exact Or.inr ⟨d, 0, 0, rfl⟩
  | estopRelease => rcases mem_safeStop _ _ hm with h | ⟨d, rfl⟩
                    · exact Or.inl h
                    · exact Or.inr ⟨d, 0, 0, rfl⟩
  | disconnectBtn => rcases mem_safeStop _ _ hm with h | ⟨d, rfl⟩
                     · exact Or.inl h
                     · exact Or.inr ⟨d, 0, 0, rfl⟩
  | setTopic name =>
      unfold step at hm
      rcases hc : s.isConnected <;> rw [hc] at hm <;> simp at hm
      · exact Or.inl hm
      · rcases mem_safeStop _ _ hm with h | ⟨d, rfl⟩
        · exact Or.inl h
        · exact Or.inr ⟨d, 0, 0, rfl⟩
  | setLinearMax q => exact Or.inl hm
  | setAngularMax q => exact Or.inl hm
  | switchToButtons => rcases mem_safeStop _ _ hm with h | ⟨d, rfl⟩
                       · exact Or.inl h
                       · exact Or.inr ⟨d, 0, 0, rfl⟩

/-- Unfolding one event of a run. -/
lemma run_cons (s : AppState) (e : Event) (rest : List Event) :
    run s (e :: rest) = run (step s e) rest := rfl

/-- Every message publishTwist builds has all four side components zero. -/
lemma zeroSides_mkTwistMsg (a b : ℚ) : zeroSides (mkTwistMsg a b) := by
  refine ⟨rfl, rfl, rfl, rfl⟩

/-- Along any run, messages with zero side components stay the only kind in
the log. -/
lemma run_zero_sides (evts : List Event) : ∀ s : AppState,
    (∀ m ∈ s.published, zeroSides m.2) →
    ∀ m ∈ (run s evts).published, zeroSides m.2 := by
  induction evts with
  | nil => intro s h m hm; exact h m hm
  | cons e rest ih =>
      intro s h m hm
      rw [run_cons] at hm
      refine ih (step s e) ?_ m hm
      intro m' hm'
      rcases mem_step s e m' hm' with h' | ⟨d, a, b, rfl⟩
      · exact h m' h'
      · exact zeroSides_mkTwistMsg a b

/-- A non-connect event preserves the pre-connection invariant: flag down,
null topic reference, empty publish log. -/
lemma step_before_connection (s : AppState) (e : Event) (he : e ≠ Event.connect)
    (h1 : s.isConnected = false) (h2 : s.cmdVelTopic = none) (h3 : s.published = []) :
    (step s e).isConnected = false ∧ (step s e).cmdVelTopic = none ∧
      (step s e).published = [] := by
  have hnull : ∀ u : AppState, u.cmdVelTopic = none → u.published = [] →
      (safeStop u).isConnected = u.isConnected ∧ (safeStop u).cmdVelTopic = none ∧
        (safeStop u).published = [] := by
    intro u hu1 hu2
    rw [safeStop_none u hu1]
    exact ⟨rfl, hu1, hu2⟩
  cases e with
  | connect => exact absurd rfl he
  | closeConn =>
      obtain ⟨g1, g2, g3⟩ := hnull { s with isConnected := false } h2 h3
      exact ⟨g1, g2, g3⟩
  | errorConn =>
      obtain ⟨g1, g2, g3⟩ := hnull { s with isConnected := false } h2 h3
      exact ⟨g1, g2, g3⟩
  | tick =>
      have : step s Event.tick = s := by
        unfold step timerTick
        rw [h1]
        rfl
      rw [this]
      exact ⟨h1, h2, h3⟩
  | joyMove vx vy => exact ⟨h1, h2, h3⟩
  | joyEnd =>
      have : step s Event.joyEnd = { s with axes := (0, 0) } := by
        unfold step publishTwist
        exact publishTwistAt_none _ _ _ _ (by simpa using h2)
      rw [this]
      exact ⟨h1, h2, h3⟩
  | btnDown b => exact ⟨h1, h2, h3⟩
  | btnUp =>
      have : step s Event.btnUp = { s with axes := (0, 0) } := by
        unfold step publishTwist
        exact publishTwistAt_none _ _ _ _ (by simpa using h2)
      rw [this]
      exact ⟨h1, h2, h3⟩
  | stopBtn =>
      have : step s Event.stopBtn = { s with axes := (0, 0) } := by
        unfold step publishTwist
        exact publishTwistAt_none _ _ _ _ (by simpa using h2)
      rw [this]
      exact ⟨h1, h2, h3⟩
  | estopPress =>
      obtain ⟨g1, g2, g3⟩ := hnull { s with estop := true } h2 h3
      exact ⟨g1.trans h1, g2, g3⟩
  | estopRelease =>
      obtain ⟨g1, g2, g3⟩ := hnull { s with estop := false } h2 h3
      exact ⟨g1.trans h1, g2, g3⟩
  | disconnectBtn =>
      obtain ⟨g1, g2, g3⟩ := hnull { s with isConnected := false, cmdVelTopic := none } rfl h3
      exact ⟨g1, g2, g3⟩
  | setTopic name =>
      have : step s (Event.setTopic name) = { s with topicName := name } := by
        unfold step
        rw [h1]
        rfl
      rw [this]
      exact ⟨h1, h2, h3⟩
  | setLinearMax q => exact ⟨h1, h2, h3⟩
  | setAngularMax q => exact ⟨h1, h2, h3⟩
  | switchToButtons =>
      obtain ⟨g1, g2, g3⟩ := hnull s h2 h3
      exact ⟨g1.trans h1, g2, g3⟩

/-- Before any connection event, the publish log stays empty along a run. -/
lemma run_before_connection (evts : List Event) : ∀ s : AppState,
    Event.connect ∉ evts → s.isConnected = false → s.cmdVelTopic = none →
    s.published = [] → (run s evts).published = [] := by
  induction evts with
  | nil => intro s _ _ _ h3; exact h3
  | cons e rest ih =>
      intro s hne h1 h2 h3
      have he : e ≠ Event.connect := fun heq => hne (heq ▸ List.mem_cons_self e rest)
      obtain ⟨g1, g2, g3⟩ := step_before_connection s e he h1 h2 h3
      rw [run_cons]
      exact ih (step s e) (fun hmem => hne (List.mem_cons_of_mem e hmem)) g1 g2 g3

/-- C1: while the e-stop flag is set, a tick of the periodic publishing loop
never publishes anything but the zero-velocity command `mkTwistMsg 0 0`
(linear.x = 0 and angular.z = 0), regardless of the axes reference; and when
connected with a live topic it publishes exactly that command. -/
theorem estop_tick_zero (s : AppState) (h : s.estop = true) :
    ((timerTick s).published = s.published ∨
      (timerTick s).published = s.published ++ [(0, mkTwistMsg 0 0)]) ∧
    (s.isConnected = true → s.cmdVelTopic.isSome = true →
      (timerTick s).published = s.published ++ [(0, mkTwistMsg 0 0)]) := by
  cases hc : s.isConnected with
  | false =>
      refine ⟨Or.inl ?_, fun hcon _ => absurd hcon (by simp)⟩
      unfold timerTick
      rw [hc]
      rfl
  | true =>
      cases ht : s.cmdVelTopic with
      | none =>
          refine ⟨Or.inl ?_, fun _ hsome => by simp at hsome⟩
          unfold timerTick publishTwist
          rw [hc, h]
          simp [publishTwistAt_none _ _ _ _ ht]
      | some t =>
          have key : (timerTick s).published = s.published ++ [(0, mkTwistMsg 0 0)] := by
            unfold timerTick publishTwist
            rw [hc, h]
            simp [publishTwistAt_some _ _ _ _ t ht]
          exact ⟨Or.inr key, fun _ _ => key⟩

/-- Witness for C1 at the state reached by connecting and pressing e-stop. -/
theorem estop_tick_zero_witness :
    (run initState [Event.connect, Event.estopPress]).estop = true ∧
    ((timerTick (run initState [Event.connect, Event.estopPress])).published =
        (run initState [Event.connect, Event.estopPress]).published ∨
      (timerTick (run initState [Event.connect, Event.estopPress])).published =
        (run initState [Event.connect, Event.estopPress]).published ++
          [(0, mkTwistMsg 0 0)]) :=
  ⟨by norm_num [run, step, safeStop, publishTwist, publishTwistAt, initState],
   (estop_tick_zero (run initState [Event.connect, Event.estopPress])
      (by norm_num [run, step, safeStop, publishTwist, publishTwistAt, initState])).1⟩

/-- C2: on a tick while connected and not e-stopped, the loop reads the axes
`(x, y)` and publishes a message whose linear.x is `y * linearMax` clamped
to `[-linearMax, linearMax]` and whose angular.z is `x * angularMax` clamped
to `[-angularMax, angularMax]`. -/
theorem tick_publishes_scaled (s : AppState)
    (hc : s.isConnected = true) (he : s.estop = false)
    (ht : s.cmdVelTopic.isSome = true) :
    (timerTick s).published = s.published ++
      [(0, mkTwistMsg
            (clamp (s.axes.2 * s.linearMax) (-s.linearMax) s.linearMax)
            (clamp (s.axes.1 * s.angularMax) (-s.angularMax) s.angularMax))] := by
  obtain ⟨t, ht'⟩ := Option.isSome_iff_exists.mp ht
  unfold timerTick publishTwist
  rw [hc, he]
  simp [publishTwistAt_some _ _ _ _ t ht']

/-- Witness for C2 at the state reached by connecting and dragging the
joystick to `(1/2, 1/2)`. -/
theorem tick_publishes_scaled_witness :
    (run initState [Event.connect, Event.joyMove (1/2) (1/2)]).isConnected = true ∧
    (run initState [Event.connect, Event.joyMove (1/2) (1/2)]).estop = false ∧
    (run initState [Event.connect, Event.joyMove (1/2) (1/2)]).cmdVelTopic.isSome = true ∧
    (timerTick (run initState [Event.connect, Event.joyMove (1/2) (1/2)])).published =
      (run initState [Event.connect, Event.joyMove (1/2) (1/2)]).published ++
      [(0, mkTwistMsg
            (clamp ((run initState [Event.connect, Event.joyMove (1/2) (1/2)]).axes.2 *
                (run initState [Event.connect, Event.joyMove (1/2) (1/2)]).linearMax)
              (-(run initState [Event.connect, Event.joyMove (1/2) (1/2)]).linearMax)
              ((run initState [Event.connect, Event.joyMove (1/2) (1/2)]).linearMax))
            (clamp ((run initState [Event.connect, Event.joyMove (1/2) (1/2)]).axes.1 *
                (run initState [Event.connect, Event.joyMove (1/2) (1/2)]).angularMax)
              (-(run initState [Event.connect, Event.joyMove (1/2) (1/2)]).angularMax)
              ((run initState [Event.connect, Event.joyMove (1/2) (1/2)]).angularMax)))] :=
  ⟨by norm_num [run, step, initState],
   by norm_num [run, step, initState],
   by norm_num [run, step, initState],
   tick_publishes_scaled (run initState [Event.connect, Event.joyMove (1/2) (1/2)])
     (by norm_num [run, step, initState])
     (by norm_num [run, step, initState])
     (by norm_num [run, step, initState])⟩

/-- C3: a joystick move event with vector `(vx, vy)` stores exactly
`(clamp(vx, -1, 1), -clamp(vy, -1, 1))` in the axes reference. -/
theorem joystick_move_axes (s : AppState) (vx vy : ℚ) :
    (step s (Event.joyMove vx vy)).axes = (clamp vx (-1) 1, -(clamp vy (-1) 1)) := rfl

/-- C4: pressing the emergency-stop button sets the e-stop flag, resets the
axes reference to `(0, 0)`, and (with a live topic) publishes a zero twist
immediately with two further zero publishes scheduled at 80 ms and 160 ms. -/
theorem estop_button_spec (s : AppState) :
    (step s Event.estopPress).estop = true ∧
    (step s Event.estopPress).axes = (0, 0) ∧
    (s.cmdVelTopic.isSome = true →
      (step s Event.estopPress).published = s.published ++
        [(0, mkTwistMsg 0 0), (80, mkTwistMsg 0 0), (160, mkTwistMsg 0 0)]) := by
  refine ⟨(safeStop_estop _).trans rfl, safeStop_axes _, fun ht => ?_⟩
  obtain ⟨t, ht'⟩ := Option.isSome_iff_exists.mp ht
  exact (safeStop_published_some { s with estop := true } t ht').trans rfl

/-- Witness for C4 at the connected initial state. -/
theorem estop_button_spec_witness :
    (run initState [Event.connect]).cmdVelTopic.isSome = true ∧
    (step (run initState [Event.connect]) Event.estopPress).published =
      (run initState [Event.connect]).published ++
        [(0, mkTwistMsg 0 0), (80, mkTwistMsg 0 0), (160, mkTwistMsg 0 0)] :=
  ⟨by norm_num [run, step, initState],
   (estop_button_spec (run initState [Event.connect])).2.2
     (by norm_num [run, step, initState])⟩

/-- C5: holding a directional button stores that button's fixed vector in
the axes reference; diagonal buttons carry horizontal component ±0.7 and
vertical component ±1, pure directions carry one component ±1 and the other
0; releasing (pointer up or leave) resets the axes to `(0, 0)` and (with a
live topic) immediately publishes a zero twist. -/
theorem button_control_spec (s : AppState) (b : DirButton) :
    (step s (Event.btnDown b)).axes = buttonAxes b ∧
    (((buttonAxes b).1 = 0.7 ∨ (buttonAxes b).1 = -0.7) ∧
        ((buttonAxes b).2 = 1 ∨ (buttonAxes b).2 = -1) ∨
      ((buttonAxes b).1 = 1 ∨ (buttonAxes b).1 = -1) ∧ (buttonAxes b).2 = 0 ∨
      (buttonAxes b).1 = 0 ∧ ((buttonAxes b).2 = 1 ∨ (buttonAxes b).2 = -1)) ∧
    (step s Event.btnUp).axes = (0, 0) ∧
    (s.cmdVelTopic.isSome = true →
      (step s Event.btnUp).published = s.published ++ [(0, mkTwistMsg 0 0)]) := by
  refine ⟨rfl, ?_, ?_, fun ht => ?_⟩
  · cases b <;> norm_num [buttonAxes]
  · exact (publishTwistAt_axes _ _ _ _).trans rfl
  · obtain ⟨t, ht'⟩ := Option.isSome_iff_exists.mp ht
    have hp := publishTwistAt_some { s with axes := ((0 : ℚ), (0 : ℚ)) } 0 0 0 t
      (by simpa using ht')
    exact (congrArg AppState.published hp).trans rfl

/-- Witness for C5 at the connected initial state for the up-left button. -/
theorem button_control_spec_witness :
    (run initState [Event.connect]).cmdVelTopic.isSome = true ∧
    (step (run initState [Event.connect]) Event.btnUp).published =
      (run initState [Event.connect]).published ++ [(0, mkTwistMsg 0 0)] :=
  ⟨by norm_num [run, step, initState],
   (button_control_spec (run initState [Event.connect]) DirButton.upLeft).2.2.2
     (by norm_num [run, step, initState])⟩

/-- C6: the topic name defaults to "/cmd_vel", the connection handler builds
the topic with ROS message type "geometry_msgs/Twist", and every twist
message carries a 3-component linear vector and a 3-component angular vector
with fields x, y, z. -/
theorem topic_and_message_shape (s : AppState) (t : Twist) :
    initState.topicName = "/cmd_vel" ∧
    (step s Event.connect).cmdVelTopic =
      some { name := s.topicName, messageType := "geometry_msgs/Twist" } ∧
    t = { linear := { x := t.linear.x, y := t.linear.y, z := t.linear.z }
          angular := { x := t.angular.x, y := t.angular.y, z := t.angular.z } } :=
  ⟨rfl, rfl, rfl⟩

/-- C7: for ordered bounds, clamp is Math.min/Math.max composition, lands in
the range, fixes values already in the range, and is idempotent. -/
theorem clamp_spec (v lo hi : ℚ) (h : lo ≤ hi) :
    clamp v lo hi = min hi (max lo v) ∧
    lo ≤ clamp v lo hi ∧ clamp v lo hi ≤ hi ∧
    (lo ≤ v → v ≤ hi → clamp v lo hi = v) ∧
    clamp (clamp v lo hi) lo hi = clamp v lo hi :=
  ⟨clamp_eq_min_max v lo hi, le_clamp v lo hi h, clamp_le v lo hi,
   fun h1 h2 => clamp_of_mem v lo hi h1 h2,
   clamp_of_mem _ lo hi (le_clamp v lo hi h) (clamp_le v lo hi)⟩

/-- Witness for C7 at v = 2, lo = -1, hi = 1. -/
theorem clamp_spec_witness :
    ((-1 : ℚ) ≤ 1) ∧ clamp 2 (-1) 1 = min 1 (max (-1) 2) ∧
    (-1 : ℚ) ≤ clamp 2 (-1) 1 ∧ clamp 2 (-1) 1 ≤ 1 ∧
    clamp (clamp 2 (-1) 1) (-1) 1 = clamp 2 (-1) 1 :=
  ⟨by norm_num,
   (clamp_spec 2 (-1) 1 (by norm_num)).1,
   (clamp_spec 2 (-1) 1 (by norm_num)).2.1,
   (clamp_spec 2 (-1) 1 (by norm_num)).2.2.1,
   (clamp_spec 2 (-1) 1 (by norm_num)).2.2.2.2⟩

/-- C8: every twist message the application ever publishes, along any run
from the initial state, has linear.y = linear.z = angular.x = angular.y = 0. -/
theorem published_always_zero_sides (evts : List Event) (m : Nat × Twist)
    (hm : m ∈ (run initState evts).published) : zeroSides m.2 :=
  run_zero_sides evts initState
    (by intro m' hm'; simp [initState] at hm') m hm

/-- Witness for C8 on the run that connects and ticks once. -/
theorem published_always_zero_sides_witness :
    ((0, mkTwistMsg 0 0) ∈ (run initState [Event.connect, Event.tick]).published) ∧
    zeroSides (mkTwistMsg 0 0) :=
  ⟨by norm_num [run, step, timerTick, publishTwist, publishTwistAt, initState,
      clamp, jsMin, jsMax],
   published_always_zero_sides [Event.connect, Event.tick] (0, mkTwistMsg 0 0)
     (by norm_num [run, step, timerTick, publishTwist, publishTwistAt, initState,
        clamp, jsMin, jsMax])⟩

/-- C9: no message is sent before a connection: publishTwist is a no-op
while the topic reference is null, a tick without the connected flag changes
nothing, and any run from the initial state without a connection event
leaves the publish log empty. -/
theorem no_publish_before_connection :
    (∀ (s : AppState) (d : Nat) (a b : ℚ),
        s.cmdVelTopic = none → publishTwistAt s d a b = s) ∧
    (∀ s : AppState, s.isConnected = false → timerTick s = s) ∧
    (∀ evts : List Event, Event.connect ∉ evts →
        (run initState evts).published = []) := by
  refine ⟨fun s d a b h => publishTwistAt_none s d a b h, fun s h => ?_,
    fun evts h => run_before_connection evts initState h rfl rfl rfl⟩
  unfold timerTick
  rw [h]
  rfl

/-- Witness for C9 at the initial state and a connection-free run. -/
theorem no_publish_before_connection_witness :
    (initState.cmdVelTopic = none ∧ publishTwistAt initState 5 1 1 = initState) ∧
    (initState.isConnected = false ∧ timerTick initState = initState) ∧
    (Event.connect ∉ [Event.tick, Event.estopPress] ∧
      (run initState [Event.tick, Event.estopPress]).published = []) :=
  ⟨⟨rfl, no_publish_before_connection.1 initState 5 1 1 rfl⟩,
   ⟨rfl, no_publish_before_connection.2.1 initState rfl⟩,
   ⟨by decide, no_publish_before_connection.2.2 [Event.tick, Event.estopPress]
      (by decide)⟩⟩

/-- C10: every event either leaves the axes reference untouched or writes a
vector whose two components both lie in [-1, 1]. -/
theorem axes_writes_bounded (s : AppState) (e : Event) :
    (step s e).axes = s.axes ∨
    (-1 ≤ (step s e).axes.1 ∧ (step s e).axes.1 ≤ 1 ∧
      -1 ≤ (step s e).axes.2 ∧ (step s e).axes.2 ≤ 1) := by
  cases e with
  | connect => exact Or.inl rfl
  | closeConn =>
      right
      have hax : (step s Event.closeConn).axes = ((0 : ℚ), (0 : ℚ)) := safeStop_axes _
      rw [hax]; norm_num
  | errorConn =>
      right
      have hax : (step s Event.errorConn).axes = ((0 : ℚ), (0 : ℚ)) := safeStop_axes _
      rw [hax]; norm_num
  | tick => exact Or.inl (timerTick_axes s)
  | joyMove vx vy =>
      right
      have hax : (step s (Event.joyMove vx vy)).axes =
          (clamp vx (-1) 1, -(clamp vy (-1) 1)) := rfl
      rw [hax]
      refine ⟨le_clamp vx (-1) 1 (by norm_num), clamp_le vx (-1) 1, ?_, ?_⟩
      · exact neg_le_neg (clamp_le vy (-1) 1)
      · simpa using neg_le_neg (le_clamp vy (-1) 1 (by norm_num))
  | joyEnd =>
      right
      have hax : (step s Event.joyEnd).axes = ((0 : ℚ), (0 : ℚ)) :=
        (publishTwistAt_axes _ _ _ _).trans rfl
      rw [hax]; norm_num
  | btnDown b =>
      right
      have hax : (step s (Event.btnDown b)).axes = buttonAxes b := rfl
      rw [hax]
      cases b <;> norm_num [buttonAxes]
  | btnUp =>
      right
      have hax : (step s Event.btnUp).axes = ((0 : ℚ), (0 : ℚ)) :=
        (publishTwistAt_axes _ _ _ _).trans rfl
      rw [hax]; norm_num
  | stopBtn =>
      right
      have hax : (step s Event.stopBtn).axes = ((0 : ℚ), (0 : ℚ)) :=
        (publishTwistAt_axes _ _ _ _).trans rfl
      rw [hax]; norm_num
  | estopPress =>
      right
      have hax : (step s Event.estopPress).axes = ((0 : ℚ), (0 : ℚ)) := safeStop_axes _
      rw [hax]; norm_num
  | estopRelease =>
      right
      have hax : (step s Event.estopRelease).axes = ((0 : ℚ), (0 : ℚ)) := safeStop_axes _
      rw [hax]; norm_num
  | disconnectBtn =>
      right
      have hax : (step s Event.disconnectBtn).axes = ((0 : ℚ), (0 : ℚ)) := safeStop_axes _
      rw [hax]; norm_num
  | setTopic name =>
      by_cases hc : s.isConnected = true
      · right
        have hax : (step s (Event.setTopic name)).axes = ((0 : ℚ), (0 : ℚ)) := by
          simp only [step]
          rw [if_pos hc]
          exact safeStop_axes _
        rw [hax]; norm_num
      · left
        simp only [step]
        rw [if_neg hc]
  | setLinearMax q => exact Or.inl rfl
  | setAngularMax q => exact Or.inl rfl
  | switchToButtons =>
      right
      have hax : (step s Event.switchToButtons).axes = ((0 : ℚ), (0 : ℚ)) := safeStop_axes _
      rw [hax]; norm_num
